import Mathlib

/-!
Verification of the arxiv-3d enrichment pipeline scripts.

Text is modelled as `List Char` (named `Str` below) with executable,
structurally recursive helpers mirroring the Python string operations used
by the scripts (strip, lower, startswith, split, join, membership).
SQL `NULL` is modelled as `Option.none`; SQLite rows become structures whose
fields are `Option` values.  Each script's functions are translated into a
namespace named after the script file.
-/

/-- Text modelled as a list of characters. -/
abbrev Str := List Char

/-- ASCII lower-casing of one character (Python `str.lower` on ASCII input). -/
def lowerC (c : Char) : Char :=
  if 'A' ≤ c ∧ c ≤ 'Z' then Char.ofNat (c.toNat + 32) else c

/-- Python `str.lower` (ASCII fragment). -/
def toLowerL (l : Str) : Str := l.map lowerC

/-- The characters Python `str.strip()` removes by default (ASCII whitespace). -/
def isPyWs (c : Char) : Bool :=
  c = ' ' ∨ c = '\t' ∨ c = '\n' ∨ c = '\r' ∨ c = Char.ofNat 11 ∨ c = Char.ofNat 12

/-- Remove the characters satisfying `p` from both ends (Python `str.strip(chars)`). -/
def dropEnds (p : Char → Bool) (l : Str) : Str :=
  ((l.dropWhile p).reverse.dropWhile p).reverse

/-- Python `str.strip()` with no argument. -/
def pyStrip (l : Str) : Str := dropEnds isPyWs l

/-- Python `str.startswith`. -/
def startsWithL : Str → Str → Bool
  | [], _ => true
  | _ :: _, [] => false
  | x :: xs, y :: ys => x == y && startsWithL xs ys

/-- Python `str.split(c)` on a one-character separator. -/
def splitOnCharL (c : Char) : Str → List Str
  | [] => [[]]
  | x :: xs =>
    match splitOnCharL c xs with
    | [] => [[x]]
    | h :: t => if x = c then [] :: h :: t else (x :: h) :: t

/-- Python `sep.join(parts)`. -/
def intercalateL (sep : Str) : List Str → Str
  | [] => []
  | [x] => x
  | x :: y :: t => x ++ sep ++ intercalateL sep (y :: t)

/-- Python `c in s` for a single character. -/
def containsC (c : Char) (l : Str) : Bool := l.any (· == c)

/-- Python `str.isdigit` (ASCII fragment): nonempty and all digits. -/
def allDigits (l : Str) : Bool := !l.isEmpty && l.all Char.isDigit

/-- Hexadecimal digit, case-insensitive (the `[0-9a-f]` class under `re.I`). -/
def isHexC (c : Char) : Bool :=
  c.isDigit || ('a' ≤ c && c ≤ 'f') || ('A' ≤ c && c ≤ 'F')

/-- Python `min` on two rationals, kept kernel-reducible. -/
def qmin (a b : ℚ) : ℚ := if a ≤ b then a else b

/-- Python `max` on two rationals, kept kernel-reducible. -/
def qmax (a b : ℚ) : ℚ := if a ≤ b then b else a

/-- SQL `COALESCE(a, b)` for two nullable values. -/
def coalesce {α : Type} : Option α → Option α → Option α
  | some x, _ => some x
  | none, b => b

/-- SQL `COALESCE(NULLIF(old, ''), new)` where `new` is a non-null string:
keeps `old` unless it is NULL or the empty string. -/
def coalesceNullifEmpty (old : Option Str) (new : Str) : Option Str :=
  match old with
  | none => some new
  | some s => if s = [] then some new else some s

/-- `json.dumps` on a list of plain strings (string escaping not modelled;
the ids serialised by the scripts contain no characters needing escapes).
`json.dumps([]) = "[]"`. -/
def jdump (xs : List Str) : Str :=
  ['['] ++ intercalateL [',', ' '] (xs.map (fun s => [Char.ofNat 34] ++ s ++ [Char.ofNat 34])) ++ [']']

namespace Stage2

/-!
Embedding of `arxiv-3d/stage_2_fetch_abstracts_from_s2.py`.
-/

/-- A row of the `papers` table as touched by stage 2
(`paperId, title, abstract, cited_by_count, year, publicationDate`).
`none` models SQL `NULL`. -/
structure SRow where
  paperId : Str
  title : Option Str
  abstract : Option Str
  cited_by_count : Option Int
  year : Option Int
  publicationDate : Option Str
deriving DecidableEq, Repr

/-- The metadata dictionary handed to `update_row` (a Semantic Scholar batch
item, or the one-key dict `\x7b"abstract": ...\x7d` built by the fallback
passes); a missing key is `none`. -/
structure SMeta where
  title : Option Str
  abstract : Option Str
  citationCount : Option Int
  year : Option Int
  publicationDate : Option Str
deriving DecidableEq, Repr

/-- `update_row` of stage 2 (lines 51-71): returns early with `False` and no
write when `(meta.get("abstract") or "").strip()` is empty; otherwise runs
`UPDATE papers SET title = COALESCE(?, title), abstract = ?,
cited_by_count = COALESCE(?, cited_by_count), year = COALESCE(?, year),
publicationDate = COALESCE(?, publicationDate)` with the incoming values
bound to the first COALESCE argument.  Returns (rowWasWritten, newRow). -/
def update_row (row : SRow) (meta : SMeta) : Bool × SRow :=
  let abstract := pyStrip (meta.abstract.getD [])
  if abstract = [] then (false, row)
  else
    (true,
      { row with
        title := coalesce meta.title row.title
        abstract := some abstract
        cited_by_count := coalesce meta.citationCount row.cited_by_count
        year := coalesce meta.year row.year
        publicationDate := coalesce meta.publicationDate row.publicationDate })

/-- The abstract reconstruction inlined in `oa_fetch_abstract_by_wid`
(lines 138-142).  It builds `idx[p] = tok` (later entries overwrite earlier
ones) and then evaluates `" ".join(idx[i] for i in range(0, max(idx.keys())+1))`.
A position in `0..max` with no token makes `idx[i]` raise `KeyError`, and an
empty `idx` makes `max(idx.keys())` raise `ValueError`; both exceptions are
modelled as `none`.  The successful result is not trimmed. -/
def oa_reconstruct (inv : List (Str × List Nat)) : Option Str :=
  let lookupPos : Nat → Option Str := fun i =>
    inv.foldl (fun acc (w, ps) => if ps.contains i then some w else acc) none
  let positions : List Nat := inv.foldr (fun (_, ps) acc => ps ++ acc) []
  match positions with
  | [] => none
  | p :: ps =>
    let m := ps.foldl max p
    if (List.range (m + 1)).all (fun i => (lookupPos i).isSome) then
      some (intercalateL [' '] ((List.range (m + 1)).map (fun i => (lookupPos i).getD [])))
    else none

end Stage2

namespace Extract

/-!
Embedding of `arxiv-3d/extract_semantic_scholar.py`.
-/

/-- A row of the `papers` table as touched by this script's `update_row`. -/
structure XRow where
  paperId : Str
  abstract : Option Str
  references : Option Str
  citedBy : Option Str
  authors : Option Str
  fieldsOfStudy : Option Str
  citationCount : Option Int
  year : Option Int
  publicationDate : Option Str
deriving DecidableEq, Repr

/-- The meta dictionary built by `s2_get_by_paperid` / `s2_get_by_key` /
the OpenAlex branch of `enrich_one` (its `abstract` value is always a string
there, via `data.get("abstract", "") or ""`). -/
structure Meta where
  title : Str
  abstract : Str
  citationCount : Option Int
  authors : List Str
  fieldsOfStudy : List Str
  year : Option Int
  publicationDate : Option Str
deriving DecidableEq, Repr

/-- The dictionary `\x7b"abstract": ""\x7d` passed to `update_row` when no
source yields anything: every other key is absent. -/
def Meta.emptyM : Meta :=
  { title := [], abstract := [], citationCount := none, authors := [],
    fieldsOfStudy := [], year := none, publicationDate := none }

/-- `update_row` of extract_semantic_scholar.py (lines 142-169):
`UPDATE papers SET abstract = ?, "references" = ?, citedBy = ?,
authors = COALESCE(NULLIF(authors,''), ?),
fieldsOfStudy = COALESCE(NULLIF(fieldsOfStudy,''), ?),
citationCount = COALESCE(citationCount, ?), year = COALESCE(year, ?),
publicationDate = COALESCE(publicationDate, ?)`, with
`meta.get("abstract", "") if meta else ""`, `json.dumps(refs or [])` etc. -/
def update_row (row : XRow) (meta : Option Meta) (refs cits : List Str) : XRow :=
  { row with
    abstract := some (match meta with | some m => m.abstract | none => [])
    references := some (jdump refs)
    citedBy := some (jdump cits)
    authors := coalesceNullifEmpty row.authors
      (jdump (match meta with | some m => m.authors | none => []))
    fieldsOfStudy := coalesceNullifEmpty row.fieldsOfStudy
      (jdump (match meta with | some m => m.fieldsOfStudy | none => []))
    citationCount := coalesce row.citationCount (meta.bind (·.citationCount))
    year := coalesce row.year (meta.bind (·.year))
    publicationDate := coalesce row.publicationDate (meta.bind (·.publicationDate)) }

/-- The need predicate of `yield_missing_papers` (lines 22-39):
`abstract IS NULL OR abstract = ''`. -/
def needB (row : XRow) : Bool :=
  match row.abstract with
  | none => true
  | some a => a.isEmpty

/-- `OPENALEX_ID_RE = ^https?://(www\.)?openalex\.org/W\d+$` with `re.I`. -/
def openAlexMatch (pid : Str) : Bool :=
  let l := toLowerL pid
  let afterScheme : Option Str :=
    if startsWithL ['h','t','t','p','s',':','/','/'] l then some (l.drop 8)
    else if startsWithL ['h','t','t','p',':','/','/'] l then some (l.drop 7)
    else none
  match afterScheme with
  | none => false
  | some r1 =>
    let r2 := if startsWithL ['w','w','w','.'] r1 then r1.drop 4 else r1
    if startsWithL ['o','p','e','n','a','l','e','x','.','o','r','g','/','w'] r2 then
      let ds := r2.drop 14
      !ds.isEmpty && ds.all Char.isDigit
    else false

/-- `S2_HEX_RE = ^[0-9a-f]{40}$` with `re.I`. -/
def s2HexMatch (pid : Str) : Bool :=
  pid.length = 40 && pid.all isHexC

/-- `id_kind` (lines 41-48). -/
inductive IdKind | openalex | s2paper | unknown
deriving DecidableEq, Repr

/-- `id_kind` (lines 41-48): empty and unmatched ids are `unknown`. -/
def id_kind (pid : Str) : IdKind :=
  if pid = [] then .unknown
  else if openAlexMatch pid then .openalex
  else if s2HexMatch pid then .s2paper
  else .unknown

/-- The `pos_to_word` dictionary built by `reconstruct_openalex_abstract`
(lines 51-55), read at position `i`; later dict entries overwrite earlier
ones, matching `pos_to_word[p] = word` in insertion order. -/
def posLookup (inv : List (Str × List Nat)) (i : Nat) : Option Str :=
  inv.foldl (fun acc (w, ps) => if ps.contains i then some w else acc) none

/-- The `max_pos` accumulator of `reconstruct_openalex_abstract`
(initialised to 0 and raised while filling `pos_to_word`). -/
def maxPosOf (inv : List (Str × List Nat)) : Nat :=
  inv.foldl (fun m (_, ps) => ps.foldl max m) 0

/-- The generator `(pos_to_word.get(i, "") for i in range(max_pos + 1))`:
one slot per position from 0 to `max_pos`, an empty token at uncovered
positions. -/
def slotsOf (inv : List (Str × List Nat)) : List Str :=
  (List.range (maxPosOf inv + 1)).map (fun i => (posLookup inv i).getD [])

/-- `reconstruct_openalex_abstract` (lines 50-56):
`" ".join(pos_to_word.get(i, "") for i in range(max_pos + 1)).strip()`. -/
def reconstruct_openalex_abstract (inv : List (Str × List Nat)) : Str :=
  pyStrip (intercalateL [' '] (slotsOf inv))

/-- Outcome of one HTTP interaction sequence of this script: either the
calls completed and produced a value, or some exception escaped (network
error, non-2xx via `raise_for_status`, ...). -/
inductive Fetch (α : Type) | ok (a : α) | exn
deriving DecidableEq, Repr

/-- What `openalex_get_ids_and_abstract` (lines 128-140) returns: the ids
block's `doi` and `arxiv` entries and the reconstructed abstract
(`None` when `abstract_inverted_index` is absent, not a dict, or empty). -/
structure OaIds where
  doi : Option Str
  arxiv : Option Str
  abstract : Option Str
deriving DecidableEq, Repr

/-- The external sources, frozen for a run: what each endpoint returns for
each identifier.  `s2ByPaperId`/`s2ByKey` yield `ok none` on HTTP 404 and
`ok (some (meta, refs, cits))` on success. -/
structure SourceState where
  s2ByPaperId : Str → Fetch (Option (Meta × List Str × List Str))
  oaIds : Str → Fetch OaIds
  s2ByKey : Str → Str → Fetch (Option (Meta × List Str × List Str))

/-- Python truthiness of an optional string (`if ids.get("abstract")`, ...). -/
def truthy : Option Str → Bool
  | none => false
  | some s => !s.isEmpty

/-- The single `update_row` call (if any) that `enrich_one` (lines 171-229)
performs for a given paper id, as a function of the frozen sources.  Every
code path of `enrich_one` either returns without touching the row (an
exception was caught, or the OpenAlex fetch failed) — modelled as `none` —
or calls `update_row` exactly once with the returned (meta, refs, cits). -/
def enrichOutcome (st : SourceState) (pid : Str) : Option (Meta × List Str × List Str) :=
  let s2Direct : Option (Meta × List Str × List Str) :=
    match st.s2ByPaperId pid with
    | .exn => none
    | .ok none => some (Meta.emptyM, [], [])
    | .ok (some (m, refs, cits)) =>
      if !m.abstract.isEmpty || !refs.isEmpty || !cits.isEmpty then some (m, refs, cits)
      else some (Meta.emptyM, [], [])
  match id_kind pid with
  | .s2paper => s2Direct
  | .unknown => s2Direct
  | .openalex =>
    match st.oaIds pid with
    | .exn => none
    | .ok ids =>
      if truthy ids.abstract then
        some ({ Meta.emptyM with abstract := ids.abstract.getD [] }, [], [])
      else
        let tryKey : Str → Option Str → Option (Meta × List Str × List Str) :=
          fun tag val =>
            if truthy val then
              match st.s2ByKey tag (val.getD []) with
              | .exn => none
              | .ok none => none
              | .ok (some (m, refs, cits)) =>
                if !m.abstract.isEmpty then some (m, refs, cits) else none
            else none
        match tryKey ['D','O','I'] ids.doi with
        | some r => some r
        | none =>
          match tryKey ['a','r','X','i','v'] ids.arxiv with
          | some r => some r
          | none => some (Meta.emptyM, [], [])

/-- The effect of `enrich_one` on one selected row. -/
def enrichRow (st : SourceState) (row : XRow) : XRow :=
  match enrichOutcome st row.paperId with
  | none => row
  | some (m, refs, cits) => update_row row (some m) refs cits

/-- One iteration of `main`'s loop for one row: `enrich_one` is invoked only
for rows matched by `yield_missing_papers`' predicate. -/
def step (st : SourceState) (row : XRow) : XRow :=
  if needB row then enrichRow st row else row

/-- One full run of `main` (lines 231-237): every row whose abstract is NULL
or empty is enriched; `update_row`'s UPDATE targets only that row's
`paperId`, so rows are independent. -/
def runPass (st : SourceState) (db : List XRow) : List XRow := db.map (step st)

/-- Number of rows a pass would update: rows matching the need predicate for
which `enrich_one` reaches its single `update_row` call. -/
def updatesOfPass (st : SourceState) (db : List XRow) : Nat :=
  (db.filter needB).countP (fun r => (enrichOutcome st r.paperId).isSome)

end Extract

namespace ImportOpenalex

/-!
Embedding of `arxiv-3d/import_openalex.py`.
-/

/-- `reconstruct_openalex_abstract` (lines 74-96): returns `""` for a missing
or empty index or when no positions exist; otherwise builds `pos2tok`
(later dict entries overwrite earlier ones), takes
`tokens = [pos2tok.get(i) for i in range(max_pos + 1)]` and returns
`" ".join(t for t in tokens if t)` — missing positions are dropped from the
join, not kept as empty slots. -/
def reconstruct_openalex_abstract (inv : List (Str × List Nat)) : Str :=
  if inv.isEmpty then []
  else
    let lookupPos : Nat → Option Str := fun i =>
      inv.foldl (fun acc (w, ps) => if ps.contains i then some w else acc) none
    let positions : List Nat := inv.foldr (fun (_, ps) acc => ps ++ acc) []
    match positions with
    | [] => []
    | p :: ps =>
      let maxPos := ps.foldl max p
      intercalateL [' ']
        ((((List.range (maxPos + 1)).map lookupPos).filterMap id).filter
          (fun t => !t.isEmpty))

end ImportOpenalex

namespace Stage1

/-!
Embedding of `arxiv-3d/stage_1_enrich_identifiers.py`.
-/

/-- The version-stripping guard of `norm_arxiv` (lines 107-108):
`len(parts) > 1 and parts[-1].isdigit()` for `parts = a.split("v")`. -/
def hasVersionTail (s : Str) : Bool :=
  decide (1 < (splitOnCharL 'v' s).length) && allDigits ((splitOnCharL 'v' s).getLastD [])

/-- `norm_arxiv` (lines 102-110): strip, drop a leading case-insensitive
`arxiv:` tag (everything after the first colon), then drop one trailing
`v<digits>` version suffix via `a.split("v")` / `"v".join(parts[:-1])`. -/
def norm_arxiv (a : Str) : Str :=
  if a = [] then []
  else
    let a1 := pyStrip a
    let a2 :=
      if startsWithL ['a','r','x','i','v',':'] (toLowerL a1) then
        (a1.dropWhile (fun c => !(c == ':'))).drop 1
      else a1
    if hasVersionTail a2 then intercalateL ['v'] (splitOnCharL 'v' a2).dropLast
    else a2

/-- `norm_doi` (lines 112-119): strip; if the lower-cased *original* starts
with `doi:` take everything after the first colon and strip again; else if
it starts with `http://doi.org/` or `https://doi.org/` drop that many
characters; finally require the remainder to start with `10.`, otherwise
return `""`.  Note: `http://dx.doi.org/` and `https://dx.doi.org/` are not
among the handled forms. -/
def norm_doi (d : Str) : Str :=
  if d = [] then []
  else
    let d1 := pyStrip d
    let low := toLowerL d1
    let d2 :=
      if startsWithL ['d','o','i',':'] low then
        pyStrip ((d1.dropWhile (fun c => !(c == ':'))).drop 1)
      else d1
    let d3 :=
      if startsWithL ['h','t','t','p',':','/','/','d','o','i','.','o','r','g','/'] low then
        d2.drop 15
      else if startsWithL ['h','t','t','p','s',':','/','/','d','o','i','.','o','r','g','/'] low then
        d2.drop 16
      else d2
    if startsWithL ['1','0','.'] d3 then d3 else []

/-- One attempted response seen by `safe_get_json` (attempts count from 1). -/
inductive HResp
  | success (payload : Nat)
  | httpError (code : Nat) (body : Str)
  | urlError
deriving DecidableEq, Repr

/-- How `safe_get_json` ends: parsed payload, `RuntimeError` carrying the
HTTP status and response body, a re-raised `URLError`, or the implicit
`None` of a loop that never ran (`max_retries = 0`). -/
inductive FetchOut
  | ok (payload : Nat)
  | raised (code : Nat) (body : Str)
  | raisedUrl
  | fellThrough
deriving DecidableEq, Repr

/-- The retried statuses of `safe_get_json`: `e.code in (429,500,502,503)`. -/
def retriable (code : Nat) : Bool :=
  code = 429 || code = 500 || code = 502 || code = 503

/-- The loop body of `safe_get_json` (lines 48-70), with `fuel` bounding the
remaining loop iterations (`max_retries` suffices). -/
def safeGetAux (resp : Nat → HResp) (maxRetries : Nat) : Nat → Nat → FetchOut
  | _, 0 => .fellThrough
  | attempt, fuel + 1 =>
    match resp attempt with
    | .success p => .ok p
    | .httpError c b =>
      if retriable c && decide (attempt < maxRetries) then
        safeGetAux resp maxRetries (attempt + 1) fuel
      else .raised c b
    | .urlError =>
      if attempt < maxRetries then safeGetAux resp maxRetries (attempt + 1) fuel
      else .raisedUrl

/-- `safe_get_json` (lines 48-70): attempts run from 1 to `max_retries`;
HTTP 429/500/502/503 and URL errors are retried while `attempt < max_retries`;
every other HTTP status raises immediately with the status code and body. -/
def safe_get_json (resp : Nat → HResp) (maxRetries : Nat) : FetchOut :=
  safeGetAux resp maxRetries 1 maxRetries

/-- The backoff delay `safe_get_json` sleeps before retry `attempt` when no
`Retry-After` header is present: `base_sleep * attempt` (the default
`base_sleep` is 0.8).  Linear, not exponential. -/
def safeGetWait (baseSleep : ℚ) (attempt : Nat) : ℚ := baseSleep * attempt

end Stage1

namespace FetchS2Arxiv

/-!
Embedding of `arxiv-3d/fetch_abstracts_s2_arxiv.py`.
-/

/-- The accepted DOI prefixes of this script's `norm_doi` (lines 31-36), in
source order. -/
def doiHeads : List Str :=
  [ ['h','t','t','p','s',':','/','/','d','o','i','.','o','r','g','/'],
    ['h','t','t','p',':','/','/','d','o','i','.','o','r','g','/'],
    ['h','t','t','p','s',':','/','/','d','x','.','d','o','i','.','o','r','g','/'],
    ['h','t','t','p',':','/','/','d','x','.','d','o','i','.','o','r','g','/'],
    ['d','o','i',':'],
    ['D','O','I',':'] ]

/-- The `for p in prefixes: if doi.lower().startswith(p.lower()):
doi = doi[len(p):].strip(); break` loop. -/
def stripHead : List Str → Str → Str
  | [], d => d
  | p :: ps, d =>
    if startsWithL (toLowerL p) (toLowerL d) then pyStrip (d.drop p.length)
    else stripHead ps d

/-- `norm_doi` (lines 26-44): strip whitespace then surrounding `"` and `'`,
strip the first matching accepted prefix case-insensitively, then reject
(`None`) when a space remains or no `/` is present. -/
def norm_doi (raw : Str) : Option Str :=
  if raw = [] then none
  else
    let d0 := dropEnds (fun c => c == Char.ofNat 39)
      (dropEnds (fun c => c == Char.ofNat 34) (pyStrip raw))
    let d := stripHead doiHeads d0
    if containsC ' ' d || !(containsC '/' d) then none else some d

/-- One response of the Semantic Scholar endpoint, indexed by request
number: parsed JSON data, a 200 whose body fails to parse, a bare status
code, or a network exception. -/
inductive S2Resp
  | okData (data : Nat)
  | badJson
  | status (code : Nat)
  | netError
deriving DecidableEq, Repr

/-- The module-level mutable state of the script: `global_delay` (seconds)
and `consecutive_429`. -/
structure S2State where
  delay : ℚ
  cons429 : Nat
deriving DecidableEq, Repr

/-- The loop of `fetch_s2_by_doi` (lines 79-160).  `attempt` only increases
on network errors and 5xx; on 429 the same DOI is retried without counting
a local attempt (after 5 consecutive 429s the 3-minute cooldown resets the
state to `delay=6, cons429=0`).  200 parses or returns `None`; 404 returns
`None`; any other status returns `None` immediately.  `fuel` bounds the
number of loop iterations (the 429 loop is unbounded in the source). -/
def fetchS2Aux (resp : Nat → S2Resp) (maxLocal : Nat) :
    Nat → Nat → Nat → S2State → Option Nat × S2State
  | 0, _, _, st => (none, st)
  | fuel + 1, reqIdx, attempt, st =>
    if attempt > maxLocal then (none, st)
    else
      match resp reqIdx with
      | .netError =>
        fetchS2Aux resp maxLocal fuel (reqIdx + 1) (attempt + 1)
          { st with delay := qmin 10 (st.delay * 3 / 2) }
      | .okData d => (some d, { delay := qmax (1/5) (st.delay * 19 / 20), cons429 := 0 })
      | .badJson => (none, { st with cons429 := 0 })
      | .status c =>
        if c = 404 then (none, { st with cons429 := 0 })
        else if c = 429 then
          let d1 := qmin 12 (st.delay * 5 / 2)
          let n1 := st.cons429 + 1
          let st2 := if n1 ≥ 5 then S2State.mk 6 0 else S2State.mk d1 n1
          fetchS2Aux resp maxLocal fuel (reqIdx + 1) attempt st2
        else if 500 ≤ c ∧ c < 600 then
          fetchS2Aux resp maxLocal fuel (reqIdx + 1) (attempt + 1)
            { st with delay := qmin 12 (st.delay * 3 / 2) }
        else (none, st)

/-- `fetch_s2_by_doi` with its default `max_local_retries = 2`, starting at
request 0, attempt 0, from the given module state. -/
def fetch_s2_by_doi (resp : Nat → S2Resp) (fuel : Nat) (st : S2State) :
    Option Nat × S2State :=
  fetchS2Aux resp 2 fuel 0 0 st

end FetchS2Arxiv

namespace OldBatch

/-!
Embedding of `arxiv-3d/OLD/enrich_abstracts_batch.py`.
-/

/-- `BASE_DELAY_S = 1.8`. -/
def BASE_DELAY_S : ℚ := 9/5

/-- `MAX_RETRIES = 9`. -/
def MAX_RETRIES : Nat := 9

/-- `jbackoff(attempt, base) = base * (2 ** attempt) + random.uniform(0, 0.8)`
(lines 25-26), with the jitter term omitted. -/
def jbackoff (attempt : Nat) (base : ℚ) : ℚ := base * 2 ^ attempt

/-- The `externalIds` of one Semantic Scholar batch item, as read by `main`
(`ext_ids.get("ArXiv")`, `ext_ids.get("DOI")`). -/
structure ExtIds where
  arxiv : Option Str
  doi : Option Str
deriving DecidableEq, Repr

/-- The `for _, val in oa_abs.items(): if val.get("abstract"): oa_hit =
val["abstract"]; break` scan (lines 241-247): the first entry of the
aggregated OpenAlex result map carrying a truthy abstract, in the map's
iteration (= insertion) order. -/
def firstNonEmptyAbstract : List (Str × Option Str) → Option Str
  | [] => none
  | (_, v) :: rest =>
    match v with
    | some a => if !a.isEmpty then some a else firstNonEmptyAbstract rest
    | none => firstNonEmptyAbstract rest

/-- The fallback-abstract selection of `main` (lines 228-247) for one record
whose Semantic Scholar abstract was empty: if the record's `externalIds`
carry a truthy ArXiv id the code scans `oa_abs` for *any* non-empty
abstract; in the `elif` DOI branch it runs the identical scan.  The record's
own identifiers are never compared against the OpenAlex result keys. -/
def pickFallback (e : ExtIds) (oaAbs : List (Str × Option Str)) : Option Str :=
  if Extract.truthy e.arxiv then firstNonEmptyAbstract oaAbs
  else if Extract.truthy e.doi then firstNonEmptyAbstract oaAbs
  else none

end OldBatch

/-!
## Helper lemmas
-/

theorem dropWhile_eq_self_of {p : Char → Bool} {l : Str} (h : ∀ c ∈ l, p c = false) :
    l.dropWhile p = l := by
  cases l with
  | nil => rfl
  | cons x xs => simp [List.dropWhile_cons, h x (by simp)]

theorem dropEnds_eq_self {p : Char → Bool} {l : Str} (h : ∀ c ∈ l, p c = false) :
    dropEnds p l = l := by
  unfold dropEnds
  rw [dropWhile_eq_self_of h,
    dropWhile_eq_self_of (fun c hc => h c (List.mem_reverse.mp hc)),
    List.reverse_reverse]

theorem splitOnCharL_ne_nil (c : Char) (l : Str) : splitOnCharL c l ≠ [] := by
  cases l with
  | nil => simp [splitOnCharL]
  | cons x xs =>
    simp only [splitOnCharL]
    rcases splitOnCharL c xs with _ | ⟨h, t⟩
    · simp
    · by_cases hx : x = c <;> simp [hx]

theorem splitOnCharL_no_sep {c : Char} {l : Str} (h : ∀ a ∈ l, a ≠ c) :
    splitOnCharL c l = [l] := by
  induction l with
  | nil => rfl
  | cons x xs ih =>
    have hx : x ≠ c := h x (by simp)
    have ihx : splitOnCharL c xs = [xs] := ih (fun a ha => h a (by simp [ha]))
    simp [splitOnCharL, ihx, hx]

theorem splitOnCharL_append_sep {c : Char} {p rest : Str} (h : ∀ a ∈ p, a ≠ c) :
    splitOnCharL c (p ++ c :: rest) = p :: splitOnCharL c rest := by
  induction p with
  | nil =>
    simp only [List.nil_append, splitOnCharL]
    rcases hs : splitOnCharL c rest with _ | ⟨hh, tt⟩
    · exact absurd hs (splitOnCharL_ne_nil c rest)
    · simp
  | cons x xs ih =>
    have hx : x ≠ c := h x (by simp)
    have ihx := ih (fun a ha => h a (by simp [ha]))
    simp [splitOnCharL, ihx, hx]

theorem splitOnCharL_intercalateL {c : Char} {parts : List Str} (hne : parts ≠ [])
    (h : ∀ q ∈ parts, ∀ a ∈ q, a ≠ c) :
    splitOnCharL c (intercalateL [c] parts) = parts := by
  induction parts with
  | nil => exact absurd rfl hne
  | cons x t ih =>
    cases t with
    | nil => exact splitOnCharL_no_sep (h x (by simp))
    | cons y tt =>
      have : intercalateL [c] (x :: y :: tt) = x ++ c :: intercalateL [c] (y :: tt) := by
        simp [intercalateL]
      rw [this, splitOnCharL_append_sep (h x (by simp)),
        ih (by simp) (fun q hq a ha => h q (by simp [hq]) a ha)]

theorem startsWithL_append (p t : Str) : startsWithL p (p ++ t) = true := by
  induction p with
  | nil => rfl
  | cons x xs ih => simpa [startsWithL] using ih

theorem containsC_eq_false {c : Char} {l : Str} (h : ∀ a ∈ l, a ≠ c) :
    containsC c l = false := by
  simp only [containsC, List.any_eq_false, beq_iff_eq]
  exact h

theorem containsC_eq_true {c : Char} {l : Str} (h : c ∈ l) :
    containsC c l = true := by
  simp only [containsC, List.any_eq_true, beq_iff_eq]
  exact ⟨c, h, rfl⟩

/-!
## Claims
-/

/-- Claim C9: in the stage-2 writer, a fetched metadata record whose
abstract is absent, empty, or whitespace-only makes `update_row` return
`False` and perform no write at all: the row is left entirely unchanged,
and the record's title, year, publicationDate and citation count are
discarded rather than written. -/
theorem C9_s2_writer_requires_abstract (row : Stage2.SRow) (meta : Stage2.SMeta)
    (h : pyStrip (meta.abstract.getD []) = []) :
    Stage2.update_row row meta = (false, row) := by
  unfold Stage2.update_row
  simp [h]

/-- Witness for C9: a whitespace-only abstract alongside a concrete title,
year, publicationDate and citation count leaves the row untouched. -/
theorem C9_witness :
    pyStrip ((some [' ', ' '] : Option Str).getD []) = [] ∧
    Stage2.update_row ⟨['p'], some ['T'], none, some 3, some 2019, none⟩
        ⟨some ['U'], some [' ', ' '], some 9, some 2020, some ['d']⟩ =
      (false, ⟨['p'], some ['T'], none, some 3, some 2019, none⟩) :=
  ⟨by decide, C9_s2_writer_requires_abstract _ _ (by decide)⟩

/-- Counterexample to claim C1: stage 2's `update_row` binds the *incoming*
value as the first `COALESCE` argument, so a row whose `year` is already
2019 is overwritten with 2020 by an update carrying year 2020 (the update
also carries a non-empty abstract, so the write proceeds). -/
theorem C1_counterexample :
    (Stage2.update_row ⟨['p'], some ['T'], some ['o'], some 3, some 2019, some ['d']⟩
        ⟨some ['U'], some ['n', 'e', 'w'], some 9, some 2020, some ['e']⟩).2.year = some 2020 ∧
    (⟨['p'], some ['T'], some ['o'], some 3, some 2019, some ['d']⟩ : Stage2.SRow).year = some 2019 ∧
    (Stage2.update_row ⟨['p'], some ['T'], some ['o'], some 3, some 2019, some ['d']⟩
        ⟨some ['U'], some ['n', 'e', 'w'], some 9, some 2020, some ['e']⟩).2.year ≠
      (⟨['p'], some ['T'], some ['o'], some 3, some 2019, some ['d']⟩ : Stage2.SRow).year := by
  decide

/-- Claim C1 as amended: the two writers disagree.  In stage 2's
`update_row` (when the write happens at all) the scalar fields title, year,
cited_by_count and publicationDate take the incoming value whenever it is
non-null and keep the stored value only when the update carries null.  In
extract_semantic_scholar's `update_row` the scalar fields citationCount,
year and publicationDate are fill-if-absent on NULL: a non-null stored
value is kept and a NULL one is replaced by the update's value. -/
theorem C1_scalar_update_semantics :
    (∀ (row : Stage2.SRow) (meta : Stage2.SMeta),
      pyStrip (meta.abstract.getD []) ≠ [] →
      ((∀ y, meta.year = some y → (Stage2.update_row row meta).2.year = some y) ∧
       (meta.year = none → (Stage2.update_row row meta).2.year = row.year) ∧
       (∀ t, meta.title = some t → (Stage2.update_row row meta).2.title = some t) ∧
       (meta.title = none → (Stage2.update_row row meta).2.title = row.title) ∧
       (∀ n, meta.citationCount = some n →
          (Stage2.update_row row meta).2.cited_by_count = some n) ∧
       (meta.citationCount = none →
          (Stage2.update_row row meta).2.cited_by_count = row.cited_by_count) ∧
       (∀ d, meta.publicationDate = some d →
          (Stage2.update_row row meta).2.publicationDate = some d) ∧
       (meta.publicationDate = none →
          (Stage2.update_row row meta).2.publicationDate = row.publicationDate))) ∧
    (∀ (row : Extract.XRow) (meta : Option Extract.Meta) (refs cits : List Str),
      ((∀ v, row.year = some v → (Extract.update_row row meta refs cits).year = some v) ∧
       (row.year = none →
          (Extract.update_row row meta refs cits).year = meta.bind (·.year)) ∧
       (∀ v, row.citationCount = some v →
          (Extract.update_row row meta refs cits).citationCount = some v) ∧
       (row.citationCount = none →
          (Extract.update_row row meta refs cits).citationCount =
            meta.bind (·.citationCount)) ∧
       (∀ v, row.publicationDate = some v →
          (Extract.update_row row meta refs cits).publicationDate = some v) ∧
       (row.publicationDate = none →
          (Extract.update_row row meta refs cits).publicationDate =
            meta.bind (·.publicationDate)))) := by
  constructor
  · intro row meta habs
    unfold Stage2.update_row
    rw [if_neg habs]
    refine ⟨fun y hy => ?_, fun hy => ?_, fun t ht => ?_, fun ht => ?_,
      fun n hn => ?_, fun hn => ?_, fun d hd => ?_, fun hd => ?_⟩ <;>
      simp_all [coalesce]
  · intro row meta refs cits
    refine ⟨fun v hv => ?_, fun hv => ?_, fun v hv => ?_, fun hv => ?_,
      fun v hv => ?_, fun hv => ?_⟩ <;>
      simp_all [Extract.update_row, coalesce]

/-- Witness for C1 as amended: stage 2 overwrites a stored year 2019 with
the update's 2020, while extract_semantic_scholar keeps a stored year 2019
against an update carrying 2020. -/
theorem C1_witness :
    (Stage2.update_row ⟨['p'], none, none, none, some 2019, none⟩
        ⟨none, some ['n'], none, some 2020, none⟩).2.year = some 2020 ∧
    (Extract.update_row ⟨['q'], none, none, none, none, none, none, some 2019, none⟩
        (some { Extract.Meta.emptyM with year := some 2020 }) [] []).year = some 2019 :=
  ⟨(C1_scalar_update_semantics.1 _ _ (by decide)).1 2020 rfl,
   (C1_scalar_update_semantics.2 _ _ [] []).1 2019 rfl⟩

/-- Counterexample to claim C2: on the gapped index with `a` at 0 and `b`
at 2, stage 2's inline reconstruction raises `KeyError` at position 1
(modelled as `none`), and import_openalex's reconstruction drops the
missing slot, returning two slots instead of three. -/
theorem C2_counterexample :
    Stage2.oa_reconstruct [(['a'], [0]), (['b'], [2])] = none ∧
    ImportOpenalex.reconstruct_openalex_abstract [(['a'], [0]), (['b'], [2])] =
      ['a', ' ', 'b'] := by
  decide

/-- Claim C2 as amended: extract_semantic_scholar's
`reconstruct_openalex_abstract` tolerates gaps: for every inverted index it
trims the space-join of exactly `max_pos + 1` slots (an empty slot at each
uncovered position), and on the gapped example it yields three slots with
the middle one empty.  The claim fails for stage 2's inline reconstruction
(KeyError, see the counterexample) and for import_openalex's variant (it
drops the empty slots). -/
theorem C2_extract_reconstruction_slots :
    (∀ inv : List (Str × List Nat),
       Extract.reconstruct_openalex_abstract inv =
         pyStrip (intercalateL [' '] (Extract.slotsOf inv)) ∧
       (Extract.slotsOf inv).length = Extract.maxPosOf inv + 1) ∧
    (∀ inv : List (Str × List Nat),
       (∀ q ∈ Extract.slotsOf inv, ∀ a ∈ q, a ≠ ' ') →
       splitOnCharL ' ' (intercalateL [' '] (Extract.slotsOf inv)) = Extract.slotsOf inv) ∧
    Extract.reconstruct_openalex_abstract [(['a'], [0]), (['b'], [2])] = ['a', ' ', ' ', 'b'] ∧
    Extract.slotsOf [(['a'], [0]), (['b'], [2])] = [['a'], [], ['b']] := by
  refine ⟨fun inv => ⟨rfl, by simp [Extract.slotsOf]⟩,
    fun inv h => splitOnCharL_intercalateL (by simp [Extract.slotsOf]) h,
    by decide, by decide⟩

/-- Witness for C2 as amended: on the gapped example the space-join of the
slot list splits back into exactly the three slots. -/
theorem C2_witness :
    splitOnCharL ' ' (intercalateL [' '] (Extract.slotsOf [(['a'], [0]), (['b'], [2])])) =
      Extract.slotsOf [(['a'], [0]), (['b'], [2])] :=
  C2_extract_reconstruction_slots.2.1 _ (by decide)

/-- Counterexample to claim C7: `norm_arxiv` strips only one trailing
version suffix, so `1v2v3` normalizes to `1v2`, which normalizes again to
`1` — applying the normalizer to its own output changes it. -/
theorem C7_counterexample :
    Stage1.norm_arxiv (Stage1.norm_arxiv ['1', 'v', '2', 'v', '3']) ≠
      Stage1.norm_arxiv ['1', 'v', '2', 'v', '3'] ∧
    Stage1.norm_arxiv ['1', 'v', '2', 'v', '3'] = ['1', 'v', '2'] ∧
    Stage1.norm_arxiv ['1', 'v', '2'] = ['1'] := by
  decide

/-- `norm_arxiv` is the identity on strings already in fully normalized
shape: no surrounding whitespace, no case-insensitive `arxiv:` tag, and no
trailing `v<digits>` suffix. -/
theorem norm_arxiv_fixpoint (s : Str)
    (h1 : pyStrip s = s)
    (h2 : startsWithL ['a', 'r', 'x', 'i', 'v', ':'] (toLowerL s) = false)
    (h3 : Stage1.hasVersionTail s = false) :
    Stage1.norm_arxiv s = s := by
  by_cases hs : s = []
  · simp [Stage1.norm_arxiv, hs]
  · simp [Stage1.norm_arxiv, hs, h1, h2, h3]

/-- Claim C7 as amended: `norm_arxiv` is idempotent exactly when its output
is in normalized shape (no surrounding whitespace, no `arxiv:` tag, no
remaining trailing `v<digits>` suffix); inputs with stacked version
suffixes such as `1v2v3` violate idempotence. -/
theorem C7_norm_arxiv_idempotent_on_normalized (a : Str)
    (h1 : pyStrip (Stage1.norm_arxiv a) = Stage1.norm_arxiv a)
    (h2 : startsWithL ['a', 'r', 'x', 'i', 'v', ':']
        (toLowerL (Stage1.norm_arxiv a)) = false)
    (h3 : Stage1.hasVersionTail (Stage1.norm_arxiv a) = false) :
    Stage1.norm_arxiv (Stage1.norm_arxiv a) = Stage1.norm_arxiv a :=
  norm_arxiv_fixpoint _ h1 h2 h3

/-- Witness for C7 as amended: `arXiv:2301.001v2` normalizes to `2301.001`,
which is a fixed point. -/
theorem C7_witness :
    Stage1.norm_arxiv
        (Stage1.norm_arxiv ['a', 'r', 'X', 'i', 'v', ':', '2', '3', '0', '1', '.', '0', '0', '1', 'v', '2']) =
      Stage1.norm_arxiv ['a', 'r', 'X', 'i', 'v', ':', '2', '3', '0', '1', '.', '0', '0', '1', 'v', '2'] :=
  C7_norm_arxiv_idempotent_on_normalized _ (by decide) (by decide) (by decide)

/-- Claim C6: in the batched OpenAlex fallback of the OLD enrichment
script, the abstract chosen for a record lacking a Semantic Scholar
abstract is the first non-empty abstract in the aggregated OpenAlex result
map's iteration order, for any record with a truthy ArXiv or DOI external
id — the record's own identifiers are never matched against the result
keys, so any two such records receive the same fallback abstract. -/
theorem C6_fallback_by_iteration_order :
    (∀ (e : OldBatch.ExtIds) (oaAbs : List (Str × Option Str)),
       (Extract.truthy e.arxiv = true ∨ Extract.truthy e.doi = true) →
       OldBatch.pickFallback e oaAbs = OldBatch.firstNonEmptyAbstract oaAbs) ∧
    (∀ (e₁ e₂ : OldBatch.ExtIds) (oaAbs : List (Str × Option Str)),
       (Extract.truthy e₁.arxiv = true ∨ Extract.truthy e₁.doi = true) →
       (Extract.truthy e₂.arxiv = true ∨ Extract.truthy e₂.doi = true) →
       OldBatch.pickFallback e₁ oaAbs = OldBatch.pickFallback e₂ oaAbs) := by
  have main : ∀ (e : OldBatch.ExtIds) (oaAbs : List (Str × Option Str)),
      (Extract.truthy e.arxiv = true ∨ Extract.truthy e.doi = true) →
      OldBatch.pickFallback e oaAbs = OldBatch.firstNonEmptyAbstract oaAbs := by
    intro e oa h
    unfold OldBatch.pickFallback
    rcases h with h | h
    · rw [if_pos h]
    · by_cases ha : Extract.truthy e.arxiv = true
      · rw [if_pos ha]
      · rw [if_neg ha, if_pos h]
  exact ⟨main, fun e₁ e₂ oa h₁ h₂ => (main e₁ oa h₁).trans (main e₂ oa h₂).symm⟩

/-- Witness for C6: a record identified by an arXiv id and a record
identified by a DOI both receive `A1`, the first non-empty abstract of the
aggregated map — regardless of their own identifiers. -/
theorem C6_witness :
    OldBatch.pickFallback ⟨some ['1', '2', '3', '4', '.', '5'], none⟩
        [(['W', '1'], some ['A', '1']), (['W', '2'], some ['A', '2'])] =
      OldBatch.firstNonEmptyAbstract
        [(['W', '1'], some ['A', '1']), (['W', '2'], some ['A', '2'])] ∧
    OldBatch.pickFallback ⟨some ['1', '2', '3', '4', '.', '5'], none⟩
        [(['W', '1'], some ['A', '1']), (['W', '2'], some ['A', '2'])] =
      OldBatch.pickFallback ⟨none, some ['1', '0', '.', '1', '/', 'y']⟩
        [(['W', '1'], some ['A', '1']), (['W', '2'], some ['A', '2'])] :=
  ⟨C6_fallback_by_iteration_order.1 _ _ (Or.inl (by decide)),
   C6_fallback_by_iteration_order.2 _ _ _ (Or.inl (by decide)) (Or.inr (by decide))⟩

/-- Counterexample to claim C5: the backoff delay computed by
`safe_get_json` (no `Retry-After` present) is `base_sleep * attempt`,
which at attempt 3 differs from the exponential `base * 2 ** attempt`
shape asserted by the claim (`jbackoff`'s formula). -/
theorem C5_counterexample :
    Stage1.safeGetWait (4/5) 3 = 12/5 ∧
    OldBatch.jbackoff 3 (4/5) = 32/5 ∧
    Stage1.safeGetWait (4/5) 3 ≠ OldBatch.jbackoff 3 (4/5) := by
  norm_num [Stage1.safeGetWait, OldBatch.jbackoff]

/-- Claim C5 as amended: `jbackoff` (ignoring jitter) is exactly
`base * 2 ** attempt` and non-decreasing; no cap is configured, but over
the attempt range actually used (`0..MAX_RETRIES-1`) it is bounded by
`1.8 * 2 ** 8 = 460.8`.  `safe_get_json`'s backoff is the linear
`base_sleep * attempt`, also non-decreasing. -/
theorem C5_backoff_shape :
    (∀ (base : ℚ) (a : Nat), OldBatch.jbackoff a base = base * 2 ^ a) ∧
    (∀ a b : Nat, a ≤ b →
       OldBatch.jbackoff a OldBatch.BASE_DELAY_S ≤
         OldBatch.jbackoff b OldBatch.BASE_DELAY_S) ∧
    (∀ a : Nat, a ≤ OldBatch.MAX_RETRIES - 1 →
       OldBatch.jbackoff a OldBatch.BASE_DELAY_S ≤ 2304 / 5) ∧
    (∀ (base : ℚ) (a : Nat), Stage1.safeGetWait base a = base * a) ∧
    (∀ a b : Nat, a ≤ b → Stage1.safeGetWait (4/5) a ≤ Stage1.safeGetWait (4/5) b) := by
  refine ⟨fun base a => rfl, ?_, ?_, fun base a => rfl, ?_⟩
  · intro a b h
    unfold OldBatch.jbackoff OldBatch.BASE_DELAY_S
    have hp : (2:ℚ) ^ a ≤ 2 ^ b := pow_le_pow_right₀ (by norm_num) h
    nlinarith
  · intro a ha
    unfold OldBatch.jbackoff OldBatch.BASE_DELAY_S
    have ha8 : a ≤ 8 := by simpa [OldBatch.MAX_RETRIES] using ha
    have hp : (2:ℚ) ^ a ≤ 2 ^ 8 := pow_le_pow_right₀ (by norm_num) ha8
    nlinarith
  · intro a b h
    unfold Stage1.safeGetWait
    have : (a:ℚ) ≤ b := by exact_mod_cast h
    nlinarith

/-- Witness for C5 as amended: concrete attempts 2 and 5. -/
theorem C5_witness :
    OldBatch.jbackoff 2 OldBatch.BASE_DELAY_S ≤ OldBatch.jbackoff 5 OldBatch.BASE_DELAY_S ∧
    OldBatch.jbackoff 5 OldBatch.BASE_DELAY_S ≤ 2304 / 5 ∧
    Stage1.safeGetWait (4/5) 2 ≤ Stage1.safeGetWait (4/5) 5 :=
  ⟨C5_backoff_shape.2.1 2 5 (by decide), C5_backoff_shape.2.2.1 5 (by decide),
   C5_backoff_shape.2.2.2.2 2 5 (by decide)⟩

/-- Counterexample to claim C4: HTTP 504 is a 5xx status, but
`safe_get_json` retries only 429/500/502/503, so a 504 on the first attempt
raises immediately (carrying status and body) even though a retry would
have succeeded. -/
theorem C4_counterexample :
    Stage1.safe_get_json
        (fun a => if a = 1 then .httpError 504 ['z'] else .success 42) 6 =
      .raised 504 ['z'] ∧
    500 ≤ 504 ∧ 504 < 600 := by
  exact ⟨by decide, by decide, by decide⟩

/-- Claim C4 as amended: in the urllib-based fetcher `safe_get_json` the
retried statuses are exactly 429, 500, 502 and 503 — any such status is
retried while attempts remain, and every other status (including other
5xx codes such as 501/504) raises immediately, surfacing the status and
body.  In `fetch_s2_by_doi` every 5xx is retried (counting a local
attempt), while any status other than 200/404/429/5xx returns `None`
immediately without surfacing the status or body. -/
theorem C4_retry_classification :
    (∀ (resp : Nat → Stage1.HResp) (maxR c : Nat) (b : Str) (v : Nat),
       2 ≤ maxR → resp 1 = .httpError c b → Stage1.retriable c = true →
       resp 2 = .success v →
       Stage1.safe_get_json resp maxR = .ok v) ∧
    (∀ (resp : Nat → Stage1.HResp) (maxR c : Nat) (b : Str),
       1 ≤ maxR → resp 1 = .httpError c b → Stage1.retriable c = false →
       Stage1.safe_get_json resp maxR = .raised c b) ∧
    (∀ (resp : Nat → FetchS2Arxiv.S2Resp) (st : FetchS2Arxiv.S2State) (fuel c d : Nat),
       500 ≤ c → c < 600 → resp 0 = .status c → resp 1 = .okData d → 2 ≤ fuel →
       (FetchS2Arxiv.fetch_s2_by_doi resp fuel st).1 = some d) ∧
    (∀ (resp : Nat → FetchS2Arxiv.S2Resp) (st : FetchS2Arxiv.S2State) (fuel c : Nat),
       resp 0 = .status c → c ≠ 404 → c ≠ 429 → ¬(500 ≤ c ∧ c < 600) → 1 ≤ fuel →
       (FetchS2Arxiv.fetch_s2_by_doi resp fuel st).1 = none) := by
  refine ⟨?_, ?_, ?_, ?_⟩
  · intro resp maxR c b v hmax h1 hc h2
    obtain ⟨k, rfl⟩ : ∃ k, maxR = k + 1 + 1 := ⟨maxR - 2, by omega⟩
    show Stage1.safeGetAux resp (k + 1 + 1) 1 (k + 1 + 1) = .ok v
    simp only [Stage1.safeGetAux, h1, hc, Bool.true_and]
    rw [if_pos (by simp)]
    simp only [Stage1.safeGetAux, h2]
  · intro resp maxR c b hmax h1 hc
    obtain ⟨k, rfl⟩ : ∃ k, maxR = k + 1 := ⟨maxR - 1, by omega⟩
    show Stage1.safeGetAux resp (k + 1) 1 (k + 1) = .raised c b
    simp only [Stage1.safeGetAux, h1, hc, Bool.false_and]
    simp
  · intro resp st fuel c d h5a h5b h0 h1 hfuel
    obtain ⟨k, rfl⟩ : ∃ k, fuel = k + 1 + 1 := ⟨fuel - 2, by omega⟩
    show (FetchS2Arxiv.fetchS2Aux resp 2 (k + 1 + 1) 0 0 st).1 = some d
    simp only [FetchS2Arxiv.fetchS2Aux, h0]
    rw [if_neg (by omega), if_neg (by omega), if_neg (by omega), if_pos ⟨h5a, h5b⟩]
    simp only [FetchS2Arxiv.fetchS2Aux, h1]
    rw [if_neg (by omega)]
  · intro resp st fuel c h0 h404 h429 h5xx hfuel
    obtain ⟨k, rfl⟩ : ∃ k, fuel = k + 1 := ⟨fuel - 1, by omega⟩
    show (FetchS2Arxiv.fetchS2Aux resp 2 (k + 1) 0 0 st).1 = none
    simp only [FetchS2Arxiv.fetchS2Aux, h0]
    rw [if_neg (by omega), if_neg h404, if_neg h429, if_neg h5xx]

/-- Witness for C4 as amended: 503 is retried to success and 501 raises
immediately in `safe_get_json`; 504 is retried to success and 403 returns
`None` in `fetch_s2_by_doi`. -/
theorem C4_witness :
    Stage1.safe_get_json
        (fun a => if a = 1 then .httpError 503 ['y'] else .success 7) 6 = .ok 7 ∧
    Stage1.safe_get_json
        (fun a => if a = 1 then .httpError 501 ['y'] else .success 7) 6 =
      .raised 501 ['y'] ∧
    (FetchS2Arxiv.fetch_s2_by_doi
        (fun i => if i = 0 then .status 504 else .okData 9) 10 ⟨2/5, 0⟩).1 = some 9 ∧
    (FetchS2Arxiv.fetch_s2_by_doi
        (fun i => if i = 0 then .status 403 else .okData 9) 10 ⟨2/5, 0⟩).1 = none :=
  ⟨C4_retry_classification.1 _ 6 503 ['y'] 7 (by decide) rfl (by decide) rfl,
   C4_retry_classification.2.1 _ 6 501 ['y'] (by decide) rfl (by decide),
   C4_retry_classification.2.2.1 _ ⟨2/5, 0⟩ 10 504 9 (by decide) (by decide) rfl rfl (by decide),
   C4_retry_classification.2.2.2 _ ⟨2/5, 0⟩ 10 403 rfl (by decide) (by decide) (by decide) (by decide)⟩

theorem coalesce_right_idem {α : Type} (a b : Option α) :
    coalesce (coalesce a b) b = coalesce a b := by
  cases a <;> cases b <;> rfl

theorem coalesceNullifEmpty_idem (a : Option Str) (n : Str) :
    coalesceNullifEmpty (coalesceNullifEmpty a n) n = coalesceNullifEmpty a n := by
  cases a with
  | none => simp only [coalesceNullifEmpty]; split <;> simp_all
  | some s =>
    simp only [coalesceNullifEmpty]
    by_cases hs : s = [] <;> simp [hs]

theorem extract_update_row_idem (r : Extract.XRow) (m : Extract.Meta)
    (refs cits : List Str) :
    Extract.update_row (Extract.update_row r (some m) refs cits) (some m) refs cits =
      Extract.update_row r (some m) refs cits := by
  simp [Extract.update_row, coalesce_right_idem, coalesceNullifEmpty_idem]

theorem extract_update_row_paperId (r : Extract.XRow) (m : Option Extract.Meta)
    (refs cits : List Str) :
    (Extract.update_row r m refs cits).paperId = r.paperId := rfl

theorem extract_enrichRow_of_none {st : Extract.SourceState} {r : Extract.XRow}
    (h : Extract.enrichOutcome st r.paperId = none) :
    Extract.enrichRow st r = r := by
  unfold Extract.enrichRow
  rw [h]

theorem extract_enrichRow_of_some {st : Extract.SourceState} {r : Extract.XRow}
    {m : Extract.Meta} {refs cits : List Str}
    (h : Extract.enrichOutcome st r.paperId = some (m, refs, cits)) :
    Extract.enrichRow st r = Extract.update_row r (some m) refs cits := by
  unfold Extract.enrichRow
  rw [h]

theorem extract_step_idem (st : Extract.SourceState) (r : Extract.XRow) :
    Extract.step st (Extract.step st r) = Extract.step st r := by
  by_cases hn : Extract.needB r = true
  · have hstep : Extract.step st r = Extract.enrichRow st r := if_pos hn
    rw [hstep]
    rcases ho : Extract.enrichOutcome st r.paperId with _ | ⟨m, refs, cits⟩
    · rw [extract_enrichRow_of_none ho]
      exact hstep.trans (extract_enrichRow_of_none ho)
    · rw [extract_enrichRow_of_some ho]
      by_cases hn2 : Extract.needB (Extract.update_row r (some m) refs cits) = true
      · have hstep2 : Extract.step st (Extract.update_row r (some m) refs cits) =
            Extract.enrichRow st (Extract.update_row r (some m) refs cits) := if_pos hn2
        rw [hstep2, extract_enrichRow_of_some (by rw [extract_update_row_paperId]; exact ho),
          extract_update_row_idem]
      · exact if_neg hn2
  · have hstep : Extract.step st r = r := if_neg hn
    rw [hstep, hstep]

/-- Counterexample to claim C3: a one-row database whose id matches no
known shape, against sources that answer 404 to everything.  The first run
writes `abstract = ''` to the row, which still matches the need predicate,
so the second run selects it again and performs one more update — not
zero. -/
theorem C3_counterexample :
    Extract.updatesOfPass
        ⟨fun _ => .ok none, fun _ => .exn, fun _ _ => .exn⟩
        (Extract.runPass ⟨fun _ => .ok none, fun _ => .exn, fun _ _ => .exn⟩
          [⟨['x'], none, none, none, none, none, none, none, none⟩]) = 1 ∧
    ((Extract.runPass ⟨fun _ => .ok none, fun _ => .exn, fun _ _ => .exn⟩
          [⟨['x'], none, none, none, none, none, none, none, none⟩]).filter
        Extract.needB).length = 1 := by
  exact ⟨by decide, by decide⟩

/-- Claim C3 as amended: a second enrichment run with unchanged sources
leaves the database state exactly as the first run left it (the pass is
idempotent on the stored state), but the second run is not free of
updates: every row for which no source yields an abstract is written with
`abstract = ''`, still matches the need predicate, and is re-selected and
re-written on each subsequent run. -/
theorem C3_second_run_is_noop_on_state (st : Extract.SourceState)
    (db : List Extract.XRow) :
    Extract.runPass st (Extract.runPass st db) = Extract.runPass st db := by
  unfold Extract.runPass
  rw [List.map_map]
  exact List.map_congr_left (fun r _ => extract_step_idem st r)

/-- Counterexample to claim C10: when Semantic Scholar answers with an
empty abstract but a non-empty reference list, `enrich_one`'s condition
`meta and (meta.get("abstract") or refs or cits)` routes to the full
`update_row(conn, pid, meta, refs, cits, ...)` write: no source yielded an
abstract, the row is written with `abstract = ''`, yet `references` is set
to the fetched list — not to the empty JSON list `[]`. -/
theorem C10_counterexample :
    Extract.Meta.emptyM.abstract = [] ∧
    (Extract.step
        ⟨fun _ => .ok (some (Extract.Meta.emptyM, [['r']], [])),
          fun _ => .exn, fun _ _ => .exn⟩
        ⟨['z'], none, some ['o'], some ['c'], none, none, none, none, none⟩).abstract =
      some [] ∧
    (Extract.step
        ⟨fun _ => .ok (some (Extract.Meta.emptyM, [['r']], [])),
          fun _ => .exn, fun _ _ => .exn⟩
        ⟨['z'], none, some ['o'], some ['c'], none, none, none, none, none⟩).references =
      some (jdump [['r']]) ∧
    (Extract.step
        ⟨fun _ => .ok (some (Extract.Meta.emptyM, [['r']], [])),
          fun _ => .exn, fun _ _ => .exn⟩
        ⟨['z'], none, some ['o'], some ['c'], none, none, none, none, none⟩).references ≠
      some ['[', ']'] := by
  exact ⟨by decide, by decide, by decide, by decide⟩

/-- Claim C10 as amended: for every selected row whose winning write
carries an empty abstract (no source yielded one), the row is still
written with `abstract = ''`, and `references`/`citedBy` are overwritten
wholesale with the serialized lists of that write — the empty JSON list
`[]` on the nothing-found path, but the fetched citation lists when
Semantic Scholar returns an empty abstract alongside non-empty
references/citations (see the counterexample) — while `authors` and
`fieldsOfStudy` keep their existing non-empty values and `citationCount`,
`year`, `publicationDate` keep their existing non-NULL values. -/
theorem C10_abstractless_write_frame (st : Extract.SourceState) (row : Extract.XRow)
    (m : Extract.Meta) (refs cits : List Str)
    (hneed : Extract.needB row = true)
    (hout : Extract.enrichOutcome st row.paperId = some (m, refs, cits))
    (habs : m.abstract = []) :
    (Extract.step st row).abstract = some [] ∧
    (Extract.step st row).references = some (jdump refs) ∧
    (Extract.step st row).citedBy = some (jdump cits) ∧
    (row.authors ≠ none → row.authors ≠ some [] →
       (Extract.step st row).authors = row.authors) ∧
    (row.fieldsOfStudy ≠ none → row.fieldsOfStudy ≠ some [] →
       (Extract.step st row).fieldsOfStudy = row.fieldsOfStudy) ∧
    (∀ v, row.citationCount = some v → (Extract.step st row).citationCount = some v) ∧
    (∀ v, row.year = some v → (Extract.step st row).year = some v) ∧
    (∀ v, row.publicationDate = some v →
       (Extract.step st row).publicationDate = some v) := by
  have hstep : Extract.step st row = Extract.update_row row (some m) refs cits :=
    (if_pos hneed).trans (extract_enrichRow_of_some hout)
  rw [hstep]
  refine ⟨by simp [Extract.update_row, habs], rfl, rfl, ?_, ?_, ?_, ?_, ?_⟩
  · intro h1 h2
    cases ha : row.authors with
    | none => exact absurd ha h1
    | some s =>
      have hs : s ≠ [] := fun he => h2 (by rw [ha, he])
      simp [Extract.update_row, coalesceNullifEmpty, ha, hs]
  · intro h1 h2
    cases ha : row.fieldsOfStudy with
    | none => exact absurd ha h1
    | some s =>
      have hs : s ≠ [] := fun he => h2 (by rw [ha, he])
      simp [Extract.update_row, coalesceNullifEmpty, ha, hs]
  · intro v hv
    simp [Extract.update_row, coalesce, hv]
  · intro v hv
    simp [Extract.update_row, coalesce, hv]
  · intro v hv
    simp [Extract.update_row, coalesce, hv]

/-- Witness for C10 as amended, exercising both abstract-less write paths:
an unknown-shaped id for which Semantic Scholar returns an empty abstract
with one reference gets that reference list written, while a 404
everywhere gets the empty JSON list — and in the 404 case the stored
authors and year survive the write. -/
theorem C10_witness :
    (Extract.step
        ⟨fun _ => .ok (some (Extract.Meta.emptyM, [['r']], [])),
          fun _ => .exn, fun _ _ => .exn⟩
        ⟨['z'], none, some ['o'], some ['c'], none, none, none, none, none⟩).references =
      some (jdump [['r']]) ∧
    (Extract.step ⟨fun _ => .ok none, fun _ => .exn, fun _ _ => .exn⟩
        ⟨['y'], none, some ['o'], some ['c'], some ['A'], some ['F'],
          some 5, some 2019, some ['d']⟩).references = some ['[', ']'] ∧
    (Extract.step ⟨fun _ => .ok none, fun _ => .exn, fun _ _ => .exn⟩
        ⟨['y'], none, some ['o'], some ['c'], some ['A'], some ['F'],
          some 5, some 2019, some ['d']⟩).authors = some ['A'] ∧
    (Extract.step ⟨fun _ => .ok none, fun _ => .exn, fun _ _ => .exn⟩
        ⟨['y'], none, some ['o'], some ['c'], some ['A'], some ['F'],
          some 5, some 2019, some ['d']⟩).year = some 2019 :=
  ⟨(C10_abstractless_write_frame _ _ Extract.Meta.emptyM [['r']] []
      (by decide) (by decide) rfl).2.1,
   ((C10_abstractless_write_frame _ _ Extract.Meta.emptyM [] []
      (by decide) (by decide) rfl).2.1).trans rfl,
   ((C10_abstractless_write_frame _ _ Extract.Meta.emptyM [] []
      (by decide) (by decide) rfl).2.2.2.1 (by decide) (by decide)).trans rfl,
   (C10_abstractless_write_frame _ _ Extract.Meta.emptyM [] []
      (by decide) (by decide) rfl).2.2.2.2.2.2.1 2019 rfl⟩

/-- Counterexample to claim C8: `http://dx.doi.org/` is listed among the
accepted prefixes, but stage 1's `norm_doi` does not strip it: the
dx-prefixed form normalizes to `""` (rejected) while the `doi:` form
normalizes to the bare DOI. -/
theorem C8_counterexample :
    Stage1.norm_doi
        (['h','t','t','p',':','/','/','d','x','.','d','o','i','.','o','r','g','/'] ++
          ['1','0','.','1','/','x']) = [] ∧
    Stage1.norm_doi (['d','o','i',':'] ++ ['1','0','.','1','/','x']) =
      ['1','0','.','1','/','x'] ∧
    Stage1.norm_doi
        (['h','t','t','p',':','/','/','d','x','.','d','o','i','.','o','r','g','/'] ++
          ['1','0','.','1','/','x']) ≠
      Stage1.norm_doi (['d','o','i',':'] ++ ['1','0','.','1','/','x']) := by
  exact ⟨by decide, by decide, by decide⟩

theorem fetch_norm_doi_head (p body : Str)
    (hp : ∀ c ∈ p ++ body, isPyWs c = false ∧ (c == Char.ofNat 34) = false ∧
      (c == Char.ofNat 39) = false)
    (hne : ¬(p ++ body = []))
    (hsh : FetchS2Arxiv.stripHead FetchS2Arxiv.doiHeads (p ++ body) = pyStrip body)
    (hb : ∀ c ∈ body, isPyWs c = false)
    (hnospace : containsC ' ' body = false)
    (hslash : containsC '/' body = true) :
    FetchS2Arxiv.norm_doi (p ++ body) = some body := by
  have h1 : pyStrip (p ++ body) = p ++ body :=
    dropEnds_eq_self (fun c hc => (hp c hc).1)
  have h2 : dropEnds (fun c => c == Char.ofNat 34) (p ++ body) = p ++ body :=
    dropEnds_eq_self (fun c hc => (hp c hc).2.1)
  have h3 : dropEnds (fun c => c == Char.ofNat 39) (p ++ body) = p ++ body :=
    dropEnds_eq_self (fun c hc => (hp c hc).2.2)
  have h4 : pyStrip body = body := dropEnds_eq_self hb
  unfold FetchS2Arxiv.norm_doi
  rw [if_neg hne]
  simp only [h1, h2, h3, hsh, h4, hnospace, hslash]
  simp

/-- Claim C8 as amended: for a DOI body `10.<rest>` free of whitespace and
quote characters and containing a slash, fetch_abstracts_s2_arxiv's
`norm_doi` maps every one of its six accepted prefixes to the same bare
body, and stage 1's `norm_doi` does the same for the only three prefixes
it accepts (`doi:`, `http://doi.org/`, `https://doi.org/`); the
`dx.doi.org` forms are rejected by stage 1 (see the counterexample). -/
theorem C8_doi_prefix_invariance (rest : Str)
    (hchar : ∀ c ∈ rest, isPyWs c = false ∧ (c == Char.ofNat 34) = false ∧
      (c == Char.ofNat 39) = false)
    (hslash : '/' ∈ rest) :
    (∀ p ∈ FetchS2Arxiv.doiHeads,
       FetchS2Arxiv.norm_doi (p ++ ('1' :: '0' :: '.' ::rest)) =
         some ('1' :: '0' :: '.' ::rest)) ∧
    (∀ p ∈ ([['d','o','i',':'],
             ['h','t','t','p',':','/','/','d','o','i','.','o','r','g','/'],
             ['h','t','t','p','s',':','/','/','d','o','i','.','o','r','g','/']] : List Str),
       Stage1.norm_doi (p ++ ('1' :: '0' :: '.' ::rest)) = '1' :: '0' :: '.' ::rest) := by
  have hbody : ∀ c ∈ ('1' :: '0' :: '.' ::rest : Str), isPyWs c = false ∧
      (c == Char.ofNat 34) = false ∧ (c == Char.ofNat 39) = false := by
    intro c hc
    simp only [List.mem_cons] at hc
    rcases hc with rfl | rfl | rfl | hc
    · decide
    · decide
    · decide
    · exact hchar c hc
  have hbody_ws : ∀ c ∈ ('1' :: '0' :: '.' ::rest : Str), isPyWs c = false :=
    fun c hc => (hbody c hc).1
  have h4 : pyStrip ('1' :: '0' :: '.' ::rest) = '1' :: '0' :: '.' ::rest :=
    dropEnds_eq_self hbody_ws
  have hnospace : containsC ' ' ('1' :: '0' :: '.' ::rest) = false :=
    containsC_eq_false (fun a ha h => by
      subst h; exact absurd (hbody_ws ' ' ha) (by decide))
  have hsl : containsC '/' ('1' :: '0' :: '.' ::rest) = true :=
    containsC_eq_true (by simp [hslash])
  constructor
  · intro p hp
    fin_cases hp <;>
      exact fetch_norm_doi_head _ _
        (fun c hc => (List.mem_append.mp hc).elim
          (fun h => by fin_cases h <;> decide) (fun h => hbody c h))
        (by simp) rfl hbody_ws hnospace hsl
  · intro p hp
    have hpall : ∀ (q : Str), (∀ c ∈ q, isPyWs c = false) →
        pyStrip (q ++ ('1' :: '0' :: '.' ::rest)) = q ++ ('1' :: '0' :: '.' ::rest) :=
      fun q hq => dropEnds_eq_self (fun c hc =>
        (List.mem_append.mp hc).elim (hq c) (hbody_ws c))
    have g5 : startsWithL ['1','0','.'] ('1' :: '0' :: '.' ::rest) = true := rfl
    fin_cases hp
    · have h1 := hpall ['d','o','i',':'] (by decide)
      have g1 : startsWithL ['d','o','i',':']
          (toLowerL (['d','o','i',':'] ++ ('1' :: '0' :: '.' ::rest))) = true := rfl
      have g2 : startsWithL ['h','t','t','p',':','/','/','d','o','i','.','o','r','g','/']
          (toLowerL (['d','o','i',':'] ++ ('1' :: '0' :: '.' ::rest))) = false := rfl
      have g3 : startsWithL ['h','t','t','p','s',':','/','/','d','o','i','.','o','r','g','/']
          (toLowerL (['d','o','i',':'] ++ ('1' :: '0' :: '.' ::rest))) = false := rfl
      have g4 : (((['d','o','i',':'] ++ ('1' :: '0' :: '.' ::rest) : Str)).dropWhile
          (fun c => !(c == ':'))).drop 1 = '1' :: '0' :: '.' ::rest := rfl
      unfold Stage1.norm_doi
      rw [if_neg (by simp)]
      simp only [h1, g1, g2, g3, g4, h4, g5, if_true, if_false]
      simp
      exact g5
    · have h1 := hpall ['h','t','t','p',':','/','/','d','o','i','.','o','r','g','/'] (by decide)
      have g1 : startsWithL ['d','o','i',':']
          (toLowerL (['h','t','t','p',':','/','/','d','o','i','.','o','r','g','/'] ++
            ('1' :: '0' :: '.' ::rest))) = false := rfl
      have g2 : startsWithL ['h','t','t','p',':','/','/','d','o','i','.','o','r','g','/']
          (toLowerL (['h','t','t','p',':','/','/','d','o','i','.','o','r','g','/'] ++
            ('1' :: '0' :: '.' ::rest))) = true := rfl
      have g4 : ((['h','t','t','p',':','/','/','d','o','i','.','o','r','g','/'] ++
          ('1' :: '0' :: '.' ::rest) : Str)).drop 15 = '1' :: '0' :: '.' ::rest := rfl
      unfold Stage1.norm_doi
      rw [if_neg (by simp)]
      simp only [h1, g1, g2, g4, g5, if_true, if_false]
      simp
      exact g5
    · have h1 := hpall ['h','t','t','p','s',':','/','/','d','o','i','.','o','r','g','/'] (by decide)
      have g1 : startsWithL ['d','o','i',':']
          (toLowerL (['h','t','t','p','s',':','/','/','d','o','i','.','o','r','g','/'] ++
            ('1' :: '0' :: '.' ::rest))) = false := rfl
      have g2 : startsWithL ['h','t','t','p',':','/','/','d','o','i','.','o','r','g','/']
          (toLowerL (['h','t','t','p','s',':','/','/','d','o','i','.','o','r','g','/'] ++
            ('1' :: '0' :: '.' ::rest))) = false := rfl
      have g3 : startsWithL ['h','t','t','p','s',':','/','/','d','o','i','.','o','r','g','/']
          (toLowerL (['h','t','t','p','s',':','/','/','d','o','i','.','o','r','g','/'] ++
            ('1' :: '0' :: '.' ::rest))) = true := rfl
      have g4 : ((['h','t','t','p','s',':','/','/','d','o','i','.','o','r','g','/'] ++
          ('1' :: '0' :: '.' ::rest) : Str)).drop 16 = '1' :: '0' :: '.' ::rest := rfl
      unfold Stage1.norm_doi
      rw [if_neg (by simp)]
      simp only [h1, g1, g2, g3, g4, g5, if_true, if_false]
      simp
      exact g5

/-- Witness for C8 as amended at `rest = "1/x"` (body `10.1/x`): the
`https://dx.doi.org/` form under the fetch normalizer and the
`https://doi.org/` form under stage 1's normalizer both yield `10.1/x`. -/
theorem C8_witness :
    FetchS2Arxiv.norm_doi
        (['h','t','t','p','s',':','/','/','d','x','.','d','o','i','.','o','r','g','/'] ++
          ('1' :: '0' :: '.' ::['1','/','x'])) = some ('1' :: '0' :: '.' ::['1','/','x']) ∧
    Stage1.norm_doi
        (['h','t','t','p','s',':','/','/','d','o','i','.','o','r','g','/'] ++
          ('1' :: '0' :: '.' ::['1','/','x'])) = '1' :: '0' :: '.' ::['1','/','x'] :=
  ⟨(C8_doi_prefix_invariance ['1','/','x'] (by decide) (by decide)).1 _
      (by decide),
   (C8_doi_prefix_invariance ['1','/','x'] (by decide) (by decide)).2 _
      (by decide)⟩
